import Mathlib

/-!
Verification development for the xSOL APY monitoring script (`src/scrape.py`).

The script drives a headless browser against a web page, extracts rows that
mention the label `xSOL`, parses percentage values out of their text, compares
the first two values, and sends a Telegram alert when their absolute
difference reaches a threshold.

Shallow embedding conventions:
* Numeric percentage values are modelled as rationals (`ℚ`): every value the
  program manipulates originates from a decimal literal captured by the regex
  `PCT_RE`, so the rational model gives the exact decimal semantics.
* The browser environment is modelled by an `Env` record: whether `page.goto`
  succeeds, and the document content (a list of table rows) that the in-page
  script observes at each attempt index.
* Effects (launch, navigation, waits, evaluation, browser close, the release
  performed when the `async with async_playwright()` block is exited, normally
  or by an exception) are recorded in an event trace.
* Fallible behaviour is explicit: the outcome type distinguishes a normal
  return, the propagated navigation error, and the unbound-local error that
  the final `return [], raw` raises when the attempt loop never ran.
-/

namespace Scrape

/-! ## Percent parser (`PCT_RE = re.compile(r"(-?\d+(?:\.\d+)?)\s*%")` and
`PCT_RE.search`, src/scrape.py line 35). -/

/-- Python `\s` on the ASCII range: space, tab, newline, carriage return,
vertical tab, form feed. -/
def isPyWhitespace (c : Char) : Bool :=
  c = ' ' || c = '\t' || c = '\n' || c = '\r' || c = '\x0b' || c = '\x0c'

/-- Numeric value of a list of decimal digit characters (most significant
first), e.g. `['4','4'] ↦ 44`. -/
def digitsVal (ds : List Char) : Nat :=
  ds.foldl (fun a c => 10 * a + (c.toNat - 48)) 0

/-- Exact numeric value of a captured token: optional sign, integer digits
`ds`, fractional digits `fs`.  Models Python `float(m.group(1))` with exact
decimal arithmetic: the magnitude is `ds.fs` read as a decimal fraction. -/
def tokenVal (neg : Bool) (ds fs : List Char) : ℚ :=
  let q : ℚ := mkRat (digitsVal ds * 10 ^ fs.length + digitsVal fs : Nat) (10 ^ fs.length)
  if neg then -q else q

/-- Match the regex `(-?\d+(?:\.\d+)?)\s*%` at the start of `cs`, returning
the captured sign, integer digits and fraction digits.  Each `+`/`*`/`?` is
taken greedily (maximal munch); this is equivalent to Python's backtracking
search here because after each greedy piece the next mandatory character
class is disjoint from the piece's class, so giving characters back can
never turn a failure into a match. -/
def pctMatchHere (cs : List Char) : Option (Bool × List Char × List Char) :=
  let res : Bool × List Char :=
    match cs with
    | '-' :: rest => (true, rest)
    | _ => (false, cs)
  let ds := res.2.takeWhile Char.isDigit
  let cs2 := res.2.dropWhile Char.isDigit
  if ds.isEmpty then none
  else
    let fres : List Char × List Char :=
      match cs2 with
      | '.' :: rest =>
          let fds := rest.takeWhile Char.isDigit
          if fds.isEmpty then ([], cs2) else (fds, rest.dropWhile Char.isDigit)
      | _ => ([], cs2)
    let cs4 := fres.2.dropWhile isPyWhitespace
    match cs4 with
    | '%' :: _ => some (res.1, ds, fres.1)
    | _ => none

/-- Value of the token matched at the start of `cs`, if any. -/
def matchHereVal (cs : List Char) : Option ℚ :=
  match pctMatchHere cs with
  | some t => some (tokenVal t.1 t.2.1 t.2.2)
  | none => none

/-- Leftmost-first scan of the match positions: Python `re.search` tries the
pattern at positions `0, 1, 2, …` and returns the first success. -/
def pctSearchAux : List Char → Option ℚ
  | [] => none
  | c :: rest =>
      match matchHereVal (c :: rest) with
      | some v => some v
      | none => pctSearchAux rest

/-- `PCT_RE.search(s)` followed by `float(m.group(1))`: the value of the
leftmost percentage token in `s`, if any (src/scrape.py lines 35, 106, 109). -/
def pctSearch (s : String) : Option ℚ :=
  pctSearchAux s.data

/-- Value of the token matched at character position `i` of `s`, if any. -/
def matchValAt (s : String) (i : Nat) : Option ℚ :=
  matchHereVal (s.data.drop i)

lemma matchHereVal_nil : matchHereVal [] = none := rfl

lemma pctSearchAux_eq_none_iff (l : List Char) :
    pctSearchAux l = none ↔ ∀ i, matchHereVal (l.drop i) = none := by
  induction l with
  | nil =>
      simp [pctSearchAux, List.drop_nil, matchHereVal_nil]
  | cons c rest ih =>
      constructor
      · intro h i
        cases hm : matchHereVal (c :: rest) with
        | some v => simp [pctSearchAux, hm] at h
        | none =>
            have hrest : pctSearchAux rest = none := by
              simpa [pctSearchAux, hm] using h
            cases i with
            | zero => simpa using hm
            | succ j =>
                have := (ih.mp hrest) j
                simpa [List.drop_succ_cons] using this
      · intro h
        have h0 : matchHereVal (c :: rest) = none := by simpa using h 0
        have hrest : pctSearchAux rest = none := by
          apply ih.mpr
          intro j
          have := h (j + 1)
          simpa [List.drop_succ_cons] using this
        simp [pctSearchAux, h0, hrest]

lemma pctSearchAux_eq_some_iff (l : List Char) (v : ℚ) :
    pctSearchAux l = some v ↔
      ∃ i, matchHereVal (l.drop i) = some v ∧
        ∀ j, j < i → matchHereVal (l.drop j) = none := by
  induction l with
  | nil =>
      simp only [pctSearchAux, List.drop_nil, matchHereVal_nil]
      constructor
      · intro h; exact absurd h (by simp)
      · rintro ⟨i, hi, -⟩; exact absurd hi (by simp)
  | cons c rest ih =>
      cases hm : matchHereVal (c :: rest) with
      | some w =>
          constructor
          · intro h
            have hw : w = v := by simpa [pctSearchAux, hm] using h
            exact ⟨0, by simpa [hw] using hm, fun j hj => absurd hj (Nat.not_lt_zero j)⟩
          · rintro ⟨i, hi, hmin⟩
            cases i with
            | zero =>
                have : w = v := by
                  have := hi
                  rw [List.drop_zero] at this
                  rw [hm] at this
                  exact Option.some.inj this
                simp [pctSearchAux, hm, this]
            | succ j =>
                have h0 := hmin 0 (Nat.succ_pos j)
                rw [List.drop_zero] at h0
                rw [hm] at h0
                exact absurd h0 (by simp)
      | none =>
          have step : pctSearchAux (c :: rest) = pctSearchAux rest := by
            simp [pctSearchAux, hm]
          rw [step, ih]
          constructor
          · rintro ⟨i, hi, hmin⟩
            refine ⟨i + 1, by simpa [List.drop_succ_cons] using hi, ?_⟩
            intro j hj
            cases j with
            | zero => simpa using hm
            | succ k =>
                have hk : k < i := Nat.lt_of_succ_lt_succ hj
                simpa [List.drop_succ_cons] using hmin k hk
          · rintro ⟨i, hi, hmin⟩
            cases i with
            | zero =>
                rw [List.drop_zero] at hi
                rw [hm] at hi
                exact absurd hi (by simp)
            | succ k =>
                refine ⟨k, by simpa [List.drop_succ_cons] using hi, ?_⟩
                intro j hj
                have := hmin (j + 1) (Nat.succ_lt_succ hj)
                simpa [List.drop_succ_cons] using this

/-! ## Row extractor (the in-page script of `page.evaluate`,
src/scrape.py lines 74-98). -/

/-- JavaScript `s.includes(pat)`: substring containment. -/
def containsSub (pat s : String) : Bool :=
  decide (pat.data <:+: s.data)

/-- JavaScript `s.trim()` (ASCII whitespace): drop leading and trailing
whitespace characters. -/
def trimStr (s : String) : String :=
  ⟨((s.data.dropWhile isPyWhitespace).reverse.dropWhile isPyWhitespace).reverse⟩

/-- ASCII lowercasing of one character, as JavaScript `toLowerCase()` acts
on the ASCII range. -/
def lowerChar (c : Char) : Char :=
  if 'A' ≤ c ∧ c ≤ 'Z' then Char.ofNat (c.toNat + 32) else c

/-- JavaScript `s.toLowerCase()` restricted to ASCII. -/
def lowerStr (s : String) : String :=
  ⟨s.data.map lowerChar⟩

/-- One `<tr>` element as the in-page script observes it: its own
`innerText`, the `innerText` of each of its `<td>` cells in order, and the
`innerText` of every descendant element in document order
(`r.querySelectorAll` uses document order). -/
structure RowElem where
  innerText : String
  cells : List String
  descendants : List String
deriving DecidableEq

/-- One entry of the `raw` list the in-page script returns:
`{ rowText: ..., apyText: ... }`. -/
structure RawRow where
  rowText : String
  apyText : String
deriving DecidableEq

/-- The primary candidate for `apyText`: the trimmed text of the 4th cell
(index 3) when the row has at least 4 cells, else the initial `''`
(src/scrape.py lines 82-86). -/
def candidate (cells : List String) : String :=
  if 4 ≤ cells.length then trimStr (cells.getD 3 "") else ""

/-- `descendantTexts.find(t => t && t.includes('%'))`: the first descendant
text (document order) that is non-empty and contains a percent sign
(src/scrape.py lines 89-90). -/
def firstPctDescendant (ds : List String) : Option String :=
  ds.find? (fun t => !(t == "") && containsSub "%" t)

/-- The `apyText` computed for a kept row (src/scrape.py lines 82-92):
start from the 4th-cell candidate; if it is empty or lacks a percent sign,
replace it by the first percent-bearing descendant text (trimmed) when one
exists; otherwise leave it as it is. -/
def rowApyText (cells ds : List String) : String :=
  let a0 := candidate cells
  if a0 == "" || !(containsSub "%" a0) then
    match firstPctDescendant ds with
    | some found => trimStr found
    | none => a0
  else a0

/-- The full in-page script (src/scrape.py lines 76-96): enumerate all rows
in document order, keep those whose trimmed `innerText` contains `'xsol'`
case-insensitively, and emit `{ rowText, apyText }` for each kept row. -/
def extractRows (rows : List RowElem) : List RawRow :=
  rows.filterMap (fun r =>
    if containsSub "xsol" (lowerStr (trimStr r.innerText)) then
      some { rowText := trimStr r.innerText,
             apyText := rowApyText r.cells r.descendants }
    else none)

/-! ## Retrying fetcher (`scrape_xsol_apys`, src/scrape.py lines 52-124).

The browser is abstracted by an `Env`: whether `page.goto` succeeds within
its timeout, and the document (list of `<tr>` elements) that the in-page
script observes at each attempt index.  Every suspension point and resource
action is recorded in an event trace.  Exiting the
`async with async_playwright()` block — normally or because an exception
propagates — stops the playwright driver and with it the browser it
launched; this scoped release is the `ctxRelease` event, appended on every
exit from the block. -/

/-- Configured attempt bound (src/scrape.py line 31). -/
def MAX_ATTEMPTS : Nat := 4

/-- Configured base wait (src/scrape.py line 32): 2.0 seconds, exact. -/
def BASE_WAIT_SECONDS : ℚ := 2

/-- Alert threshold in percentage points (src/scrape.py line 22). -/
def THRESHOLD : ℚ := 3

/-- `int(BASE_WAIT_SECONDS * 1000 * (1 + attempt))` (src/scrape.py line 71);
the value is a positive whole number, so Python `int` truncation is the
floor. -/
def waitMs (attempt : Nat) : ℤ :=
  (BASE_WAIT_SECONDS * 1000 * (1 + attempt : ℚ)).floor

/-- Events of one run, in order: browser launch, navigation (with its
outcome), the network-idle wait, the timed wait, one in-page script
evaluation, an explicit `browser.close()`, and the scoped release performed
when the `async with` block is exited. -/
inductive Ev where
  | launch
  | goto (ok : Bool)
  | waitNetworkIdle
  | waitTimeout (ms : ℤ)
  | evaluate
  | closeBrowser
  | ctxRelease
deriving DecidableEq

/-- How a run of `scrape_xsol_apys` ends: a normal return `(apys, raw)`, the
navigation timeout propagating out of the coroutine, or the unbound-local
error raised by `return [], raw` when the loop body never executed. -/
inductive Outcome where
  | ok (apys : List ℚ) (raw : List RawRow)
  | navError
  | unboundLocal
deriving DecidableEq

/-- The external world of one run: whether `page.goto(URL, timeout=60000)`
succeeds, and the rows the live document holds when attempt `i` evaluates
the in-page script. -/
structure Env where
  gotoOk : Bool
  doc : Nat → List RowElem

/-- The `raw` list produced by attempt `i` (src/scrape.py lines 74-98). -/
def attemptRaw (env : Env) (i : Nat) : List RawRow :=
  extractRows (env.doc i)

/-- Parsing pass over one attempt's `raw` list (src/scrape.py lines
100-113): for each item, `PCT_RE.search(apy_text) or PCT_RE.search(row_text)`,
keeping the captured value when either matches.  `float` on a captured
group never fails, so the `try`/`except` around it adds nothing here. -/
def parseApys (raw : List RawRow) : List ℚ :=
  raw.filterMap (fun item =>
    match pctSearch item.apyText with
    | some v => some v
    | none => pctSearch item.rowText)

/-- Parsed values of attempt `i`. -/
def attemptValues (env : Env) (i : Nat) : List ℚ :=
  parseApys (attemptRaw env i)

/-- The `while attempt < MAX_ATTEMPTS` loop (src/scrape.py lines 67-124),
driven by the remaining number of iterations `fuel` (initially the
configured maximum, since `attempt` starts at 0 and increases by 1 per
iteration).  `lastRaw` is the current value of the `raw` variable: `none`
while it is still unassigned, `some` once an iteration ran.  On exhaustion
the code closes the browser and returns `[], raw` — the empty list, not the
last attempt's parsed values; if `raw` was never assigned this raises an
unbound-local error. -/
def loopAux (env : Env) : Nat → Nat → Option (List RawRow) → List Ev × Outcome
  | _, 0, some raw => ([Ev.closeBrowser], Outcome.ok [] raw)
  | _, 0, none => ([], Outcome.unboundLocal)
  | attempt, fuel + 1, _ =>
      if 2 ≤ (attemptValues env attempt).length then
        ([Ev.waitNetworkIdle, Ev.waitTimeout (waitMs attempt), Ev.evaluate, Ev.closeBrowser],
          Outcome.ok (attemptValues env attempt) (attemptRaw env attempt))
      else
        ([Ev.waitNetworkIdle, Ev.waitTimeout (waitMs attempt), Ev.evaluate] ++
            (loopAux env (attempt + 1) fuel (some (attemptRaw env attempt))).1,
          (loopAux env (attempt + 1) fuel (some (attemptRaw env attempt))).2)

/-- `scrape_xsol_apys` (src/scrape.py lines 52-124) with the attempt bound
as a parameter (the deployed configuration uses `MAX_ATTEMPTS = 4`).
Launch and navigate once; on navigation failure the exception propagates
out of the `async with` block (which still releases the driver), otherwise
run the attempt loop and release the driver on block exit. -/
def scrape_xsol_apys (env : Env) (maxAttempts : Nat) : List Ev × Outcome :=
  if env.gotoOk then
    let r := loopAux env 0 maxAttempts none
    (Ev.launch :: Ev.goto true :: (r.1 ++ [Ev.ctxRelease]), r.2)
  else
    ([Ev.launch, Ev.goto false, Ev.ctxRelease], Outcome.navError)

/-- `true` on the timed-wait events, used to count waits in a trace. -/
def isTimedWait : Ev → Bool
  | Ev.waitTimeout _ => true
  | _ => false

/-! ## Notifier (`send_telegram_message`, src/scrape.py lines 41-50). -/

/-- What the HTTP transport does for the one `requests.post` call: deliver a
response (with status code, whether its body parses as JSON, and the parsed
body), fail with a network error, or exceed the 10-second timeout.  Network
errors and timeouts are raised by `requests.post`; both are `Exception`
subclasses. -/
inductive TransportOutcome where
  | response (status : Nat) (jsonOk : Bool) (body : String)
  | netError
  | timedOut
deriving DecidableEq

/-- `send_telegram_message` (src/scrape.py lines 41-50).  The whole call is
wrapped in `try: ... except Exception: print(...); return None`, so every
raising path is embedded as the `none` result and the function is total —
no exception reaches the caller.  `r.raise_for_status()` raises exactly for
status codes 400-599; `r.json()` raises when the body is not JSON. -/
def send_telegram_message : TransportOutcome → Option String
  | TransportOutcome.response status jsonOk body =>
      if 400 ≤ status ∧ status < 600 then none
      else if jsonOk then some body else none
  | TransportOutcome.netError => none
  | TransportOutcome.timedOut => none

/-! ## Divergence evaluator and main (src/scrape.py lines 130-156). -/

/-- The divergence evaluation of `main` (src/scrape.py lines 144-148) as a
component: defined when the list has at least two values, it uses the first
two in extraction order, computes `abs(values[0] - values[1])`, and alerts
exactly when the difference reaches the threshold. -/
def evaluateDiv (values : List ℚ) (threshold : ℚ) : Option (ℚ × Bool) :=
  match values with
  | a :: b :: _ => some (|a - b|, decide (threshold ≤ |a - b|))
  | _ => none

/-- Terminal states of one `main` run (src/scrape.py lines 130-156). -/
inductive MainOutcome where
  | navError
  | fatalError
  | insufficientData (raw : List RawRow)
  | alerted (first second diff : ℚ) (delivered : Bool)
  | noAlert (first second diff : ℚ)
  | indexError
deriving DecidableEq

/-- `main` (src/scrape.py lines 130-156): run the scraper; on an empty list
print diagnostics and stop; otherwise read `apys[0]` and `apys[1]` (an
index error if only one value were present), compare against `THRESHOLD`,
and on a breach call `send_telegram_message`, whose result is ignored —
only the delivery flag is recorded here.  Exceptions from the scraper
(navigation failure, unbound local) propagate and abort the run. -/
def mainRun (env : Env) (maxAttempts : Nat) (t : TransportOutcome) : MainOutcome :=
  match (scrape_xsol_apys env maxAttempts).2 with
  | Outcome.navError => MainOutcome.navError
  | Outcome.unboundLocal => MainOutcome.fatalError
  | Outcome.ok apys raw =>
      if apys.isEmpty then MainOutcome.insufficientData raw
      else
        match apys with
        | a :: b :: _ =>
            let diff := |a - b|
            if THRESHOLD ≤ diff then
              MainOutcome.alerted a b diff (send_telegram_message t).isSome
            else MainOutcome.noAlert a b diff
        | _ => MainOutcome.indexError

/-- Forget the delivery flag of an alert outcome: two runs that differ only
in what the notification transport did are identified by this map. -/
def stripDelivered : MainOutcome → MainOutcome
  | MainOutcome.alerted a b d _ => MainOutcome.alerted a b d true
  | o => o

/-! ### Concrete environments used for witnesses and counterexamples. -/

/-- A row that parses to the single value 10 (via its `rowText` fallback). -/
def rowOne : RowElem :=
  { innerText := " xSOL pool 10% ", cells := [], descendants := [] }

/-- A second row, value 7. -/
def rowTwo : RowElem :=
  { innerText := "XSOL alt 7%", cells := [], descendants := [] }

/-- Attempt 0 sees one matching row, every later attempt sees two. -/
def envA : Env :=
  { gotoOk := true, doc := fun i => if i = 0 then [rowOne] else [rowOne, rowTwo] }

/-- Every attempt sees exactly one matching row (one parsed value). -/
def envB : Env :=
  { gotoOk := true, doc := fun _ => [rowOne] }

/-- Navigation fails. -/
def envNav : Env :=
  { gotoOk := false, doc := fun _ => [] }

/-- A mixed-case labelled row used to instantiate C8. -/
def rowMixedCase : RowElem :=
  ⟨" XSol pool ", ["a", "b", "c", "5%"], []⟩

/-! ## Lemmas about the attempt loop. -/

lemma scrape_snd (env : Env) (M : Nat) :
    (scrape_xsol_apys env M).2 =
      if env.gotoOk then (loopAux env 0 M none).2 else Outcome.navError := by
  by_cases hg : env.gotoOk = true <;> simp [scrape_xsol_apys, hg]

lemma scrape_trace_true (env : Env) (M : Nat) (hg : env.gotoOk = true) :
    (scrape_xsol_apys env M).1 =
      Ev.launch :: Ev.goto true :: ((loopAux env 0 M none).1 ++ [Ev.ctxRelease]) := by
  simp [scrape_xsol_apys, hg]

lemma filterMap_ite_eq {α β : Type} (p : α → Bool) (f : α → β) (l : List α) :
    (l.filterMap (fun x => if p x then some (f x) else none)) = (l.filter p).map f := by
  induction l with
  | nil => rfl
  | cons a t ih =>
      by_cases h : p a = true <;> simp [List.filterMap_cons, List.filter_cons, h, ih]

lemma loopAux_success (env : Env) :
    ∀ (k fuel attempt : Nat) (lastRaw : Option (List RawRow)),
      k < fuel →
      (∀ j, j < k → (attemptValues env (attempt + j)).length < 2) →
      2 ≤ (attemptValues env (attempt + k)).length →
      (loopAux env attempt fuel lastRaw).2 =
          Outcome.ok (attemptValues env (attempt + k)) (attemptRaw env (attempt + k)) ∧
      (loopAux env attempt fuel lastRaw).1.count Ev.evaluate = k + 1 ∧
      (loopAux env attempt fuel lastRaw).1.count Ev.waitNetworkIdle = k + 1 ∧
      (loopAux env attempt fuel lastRaw).1.countP isTimedWait = k + 1 := by
  intro k
  induction k with
  | zero =>
      intro fuel attempt lastRaw hk hfail hsucc
      obtain ⟨f, rfl⟩ : ∃ f, fuel = f + 1 := ⟨fuel - 1, by omega⟩
      rw [Nat.add_zero] at hsucc
      simp [loopAux, hsucc, List.count_cons, isTimedWait]
  | succ k ih =>
      intro fuel attempt lastRaw hk hfail hsucc
      obtain ⟨f, rfl⟩ : ∃ f, fuel = f + 1 := ⟨fuel - 1, by omega⟩
      have h0 : (attemptValues env attempt).length < 2 := by
        have := hfail 0 (Nat.succ_pos k)
        simpa using this
      have hres := ih f (attempt + 1) (some (attemptRaw env attempt))
        (by omega)
        (by
          intro j hj
          have := hfail (j + 1) (by omega)
          simpa [Nat.add_assoc, Nat.add_comm 1 j] using this)
        (by
          have h := hsucc
          have e : attempt + (k + 1) = attempt + 1 + k := by omega
          rwa [e] at h)
      have e : attempt + (k + 1) = attempt + 1 + k := by omega
      rw [e]
      constructor
      · simpa [loopAux, Nat.not_le.mpr h0] using hres.1
      · refine ⟨?_, ?_, ?_⟩ <;>
          simp [loopAux, Nat.not_le.mpr h0, List.count_cons, List.count_append,
            List.countP_cons, List.countP_append, isTimedWait, hres.2.1, hres.2.2.1,
            hres.2.2.2]

lemma loopAux_exhaust (env : Env) :
    ∀ (fuel attempt : Nat) (lastRaw : Option (List RawRow)),
      0 < fuel →
      (∀ j, j < fuel → (attemptValues env (attempt + j)).length < 2) →
      (loopAux env attempt fuel lastRaw).2 =
        Outcome.ok [] (attemptRaw env (attempt + fuel - 1)) := by
  intro fuel
  induction fuel with
  | zero => intro attempt lastRaw h; omega
  | succ f ih =>
      intro attempt lastRaw _ hfail
      have h0 : (attemptValues env attempt).length < 2 := by
        have := hfail 0 (Nat.succ_pos f)
        simpa using this
      cases Nat.eq_zero_or_pos f with
      | inl hf =>
          subst hf
          simp [loopAux, Nat.not_le.mpr h0]
      | inr hf =>
          have hres := ih (attempt + 1) (some (attemptRaw env attempt)) hf (by
            intro j hj
            have := hfail (j + 1) (by omega)
            simpa [Nat.add_assoc, Nat.add_comm 1 j] using this)
          have e : attempt + 1 + f - 1 = attempt + (f + 1) - 1 := by omega
          rw [e] at hres
          simpa [loopAux, Nat.not_le.mpr h0] using hres

lemma loopAux_ok_shape (env : Env) :
    ∀ (fuel attempt : Nat) (lastRaw : Option (List RawRow)) (apys : List ℚ)
      (raw : List RawRow),
      (loopAux env attempt fuel lastRaw).2 = Outcome.ok apys raw →
      apys = [] ∨ 2 ≤ apys.length := by
  intro fuel
  induction fuel with
  | zero =>
      intro attempt lastRaw apys raw h
      cases lastRaw with
      | some r =>
          left
          have : Outcome.ok ([] : List ℚ) r = Outcome.ok apys raw := h
          cases this
          rfl
      | none => simp [loopAux] at h
  | succ f ih =>
      intro attempt lastRaw apys raw h
      by_cases h2 : 2 ≤ (attemptValues env attempt).length
      · right
        rw [loopAux, if_pos h2] at h
        cases h
        exact h2
      · rw [loopAux, if_neg h2] at h
        exact ih (attempt + 1) (some (attemptRaw env attempt)) apys raw h

lemma loopAux_ok_exists (env : Env) :
    ∀ (fuel attempt : Nat) (lastRaw : Option (List RawRow)),
      0 < fuel ∨ lastRaw.isSome →
      ∃ apys raw, (loopAux env attempt fuel lastRaw).2 = Outcome.ok apys raw := by
  intro fuel
  induction fuel with
  | zero =>
      intro attempt lastRaw h
      cases lastRaw with
      | some r => exact ⟨[], r, rfl⟩
      | none => simp at h
  | succ f ih =>
      intro attempt lastRaw _
      by_cases h2 : 2 ≤ (attemptValues env attempt).length
      · exact ⟨attemptValues env attempt, attemptRaw env attempt, by rw [loopAux, if_pos h2]⟩
      · obtain ⟨a, r, hr⟩ := ih (attempt + 1) (some (attemptRaw env attempt)) (Or.inr rfl)
        exact ⟨a, r, by rw [loopAux, if_neg h2]; exact hr⟩

lemma loopAux_close (env : Env) :
    ∀ (fuel attempt : Nat) (lastRaw : Option (List RawRow)) (apys : List ℚ)
      (raw : List RawRow),
      (loopAux env attempt fuel lastRaw).2 = Outcome.ok apys raw →
      Ev.closeBrowser ∈ (loopAux env attempt fuel lastRaw).1 := by
  intro fuel
  induction fuel with
  | zero =>
      intro attempt lastRaw apys raw h
      cases lastRaw with
      | some r => simp [loopAux]
      | none => simp [loopAux] at h
  | succ f ih =>
      intro attempt lastRaw apys raw h
      by_cases h2 : 2 ≤ (attemptValues env attempt).length
      · rw [loopAux, if_pos h2]
        simp
      · rw [loopAux, if_neg h2]
        rw [loopAux, if_neg h2] at h
        have := ih (attempt + 1) (some (attemptRaw env attempt)) apys raw h
        simp [this]

/-! ## Claims. -/

unseal Rat.sub Rat.add Rat.mul Rat.ofScientific in
/-- Claim C5: the percent parser returns the value of the leftmost
percentage token (optional sign, digits, optional decimal fraction, then —
after the regex's tolerated whitespace — a percent sign): if a token is
present, the result is exactly the numeric value of the first one in
left-to-right position order; if no position matches, the result is no
match.  Examples from the specification included; values are exact
rationals. -/
theorem pct_parser_spec :
    (∀ (s : String) (v : ℚ), pctSearch s = some v ↔
        ∃ i, matchValAt s i = some v ∧ ∀ j, j < i → matchValAt s j = none) ∧
    (∀ s : String, pctSearch s = none ↔ ∀ i, matchValAt s i = none) ∧
    pctSearch "Fixed APY: 44.80%" = some 44.8 ∧
    pctSearch "-3%" = some (-3) ∧
    pctSearch "no number here" = none := by
  refine ⟨?_, ?_, by decide, by decide, by decide⟩
  · intro s v
    exact pctSearchAux_eq_some_iff s.data v
  · intro s
    exact pctSearchAux_eq_none_iff s.data

/-- Closed instance of C5: the `"-3%"` example, pushed through the leftmost
characterisation of the search. -/
theorem pct_parser_spec_witness :
    ∃ i, matchValAt "-3%" i = some (-3) ∧
      ∀ j, j < i → matchValAt "-3%" j = none :=
  (pct_parser_spec.1 "-3%" (-3)).mp pct_parser_spec.2.2.2.1

/-- Claim C8: a row is kept by the extractor exactly when its full text,
lowercased, contains the lowercased label `"xSOL"`; what is emitted for a
kept row depends only on its cells and descendants, and whether a row is
kept does not depend on them at all. -/
theorem row_filter_spec :
    (∀ rows : List RowElem,
        extractRows rows =
          (rows.filter
              (fun r => containsSub (lowerStr "xSOL") (lowerStr (trimStr r.innerText)))).map
            (fun r => { rowText := trimStr r.innerText,
                        apyText := rowApyText r.cells r.descendants })) ∧
    lowerStr "xSOL" = "xsol" ∧
    (∀ (t : String) (c c' d d' : List String),
        (extractRows [⟨t, c, d⟩]).length = (extractRows [⟨t, c', d'⟩]).length) := by
  have hx : lowerStr "xSOL" = "xsol" := by decide
  refine ⟨?_, hx, ?_⟩
  · intro rows
    rw [hx]
    exact filterMap_ite_eq _ _ rows
  · intro t c c' d d'
    by_cases hc : containsSub "xsol" (lowerStr (trimStr t)) = true <;>
      simp [extractRows, hc]

/-- Closed instance of C8: the filter-and-map characterisation at a
concrete one-row document. -/
theorem row_filter_spec_witness :
    extractRows [rowMixedCase] =
      ([rowMixedCase].filter
          (fun r => containsSub (lowerStr "xSOL") (lowerStr (trimStr r.innerText)))).map
        (fun r => { rowText := trimStr r.innerText,
                    apyText := rowApyText r.cells r.descendants }) :=
  row_filter_spec.1 [rowMixedCase]

/-- Counterexample to claim C6 as stated: a row with 4 cells whose 4th cell
reads `"n/a"` and whose descendants carry no percent sign keeps
`apyText = "n/a"` — not the empty string the claim requires when neither
source yields a percent-bearing string. -/
theorem row_apytext_cex :
    4 ≤ (["x", "y", "z", "n/a"] : List String).length ∧
    candidate ["x", "y", "z", "n/a"] = "n/a" ∧
    containsSub "%" "n/a" = false ∧
    firstPctDescendant ["no percent", "here"] = none ∧
    rowApyText ["x", "y", "z", "n/a"] ["no percent", "here"] = "n/a" ∧
    "n/a" ≠ "" := by decide

/-- Claim C6 (amended): the `apyText` chain.  The 4th-cell trimmed text is
the primary candidate (empty when the row has fewer than 4 cells); when it
is non-empty and percent-bearing it is the answer; otherwise the first
percent-bearing descendant text, trimmed, replaces it when one exists, and
when none exists `apyText` stays equal to the primary candidate — which is
empty only when the 4th cell was absent or trimmed to emptiness, not in
general.  The row is emitted either way, and the specification's fallback
example yields `"12.5%"`. -/
theorem row_apytext_chain (cells ds : List String) :
    (¬ (candidate cells = "" ∨ containsSub "%" (candidate cells) = false) →
        rowApyText cells ds = candidate cells) ∧
    ((candidate cells = "" ∨ containsSub "%" (candidate cells) = false) →
        (∀ found, firstPctDescendant ds = some found →
            rowApyText cells ds = trimStr found) ∧
        (firstPctDescendant ds = none → rowApyText cells ds = candidate cells)) ∧
    rowApyText ["x", "y", "z", "n/a"] ["n/a", "12.5%"] = "12.5%" := by
  refine ⟨?_, ?_, by decide⟩
  · intro h
    cases hc : containsSub "%" (candidate cells) with
    | false => exact absurd (Or.inr hc) h
    | true =>
        have ha : ¬ candidate cells = "" := fun he => h (Or.inl he)
        have hb : (candidate cells == "") = false := by simp [ha]
        simp [rowApyText, hb, hc]
  · intro h
    have hb : (candidate cells == "" || !(containsSub "%" (candidate cells))) = true := by
      rcases h with h | h <;> simp [h]
    constructor
    · intro found hf
      simp [rowApyText, hb, hf]
    · intro hf
      simp [rowApyText, hb, hf]

/-- Closed instance of the amended C6: a percent-bearing 4th cell is used
directly. -/
theorem row_apytext_chain_witness :
    rowApyText ["x", "y", "z", " 44.8% "] ["junk"] = candidate ["x", "y", "z", " 44.8% "] :=
  (row_apytext_chain ["x", "y", "z", " 44.8% "] ["junk"]).1 (by decide)

unseal Rat.sub Rat.add Rat.mul Rat.ofScientific in
/-- Claim C2: for any list with at least two values and any threshold, the
divergence evaluation uses the first two values in extraction order,
computes the absolute difference, and alerts exactly when the difference
reaches the threshold (boundary inclusive); the specification's three
numeric examples hold exactly over the rationals. -/
theorem evaluate_divergence_spec :
    (∀ (a b : ℚ) (rest : List ℚ) (t : ℚ),
        evaluateDiv (a :: b :: rest) t = some (|a - b|, decide (t ≤ |a - b|)) ∧
        ((evaluateDiv (a :: b :: rest) t).map Prod.snd = some true ↔ t ≤ |a - b|)) ∧
    evaluateDiv [44.8, 41.5] 3 = some (3.3, true) ∧
    evaluateDiv [44.8, 43.5] 3 = some (1.3, false) ∧
    (evaluateDiv [10, 7] 3).map Prod.snd = some true := by
  refine ⟨?_, by decide, by decide, by decide⟩
  intro a b rest t
  refine ⟨rfl, ?_⟩
  simp [evaluateDiv]

/-- Closed instance of C2: the boundary case `evaluate([10, 7], 3)` alerts. -/
theorem evaluate_divergence_spec_witness :
    (evaluateDiv [10, 7] 3).map Prod.snd = some true :=
  evaluate_divergence_spec.2.2.2

/-- Claim C7: if the attempts before `i` all yield fewer than 2 values and
attempt `i < maxAttempts` yields at least 2, the loop returns attempt `i`'s
values and raw rows, and the trace shows exactly `i + 1` script
evaluations, `i + 1` network-idle waits and `i + 1` timed waits — nothing
after the successful attempt. -/
theorem scrape_early_success (env : Env) (M i : Nat)
    (hg : env.gotoOk = true) (hi : i < M)
    (hbefore : ∀ j, j < i → (attemptValues env j).length < 2)
    (hsucc : 2 ≤ (attemptValues env i).length) :
    (scrape_xsol_apys env M).2 = Outcome.ok (attemptValues env i) (attemptRaw env i) ∧
    (scrape_xsol_apys env M).1.count Ev.evaluate = i + 1 ∧
    (scrape_xsol_apys env M).1.count Ev.waitNetworkIdle = i + 1 ∧
    (scrape_xsol_apys env M).1.countP isTimedWait = i + 1 := by
  have h := loopAux_success env i M 0 none hi
    (by intro j hj; simpa using hbefore j hj)
    (by simpa using hsucc)
  rw [Nat.zero_add] at h
  refine ⟨?_, ?_, ?_, ?_⟩
  · rw [scrape_snd, if_pos hg]
    exact h.1
  · rw [scrape_trace_true env M hg]
    simp [List.count_cons, List.count_append, h.2.1]
  · rw [scrape_trace_true env M hg]
    simp [List.count_cons, List.count_append, h.2.2.1]
  · rw [scrape_trace_true env M hg]
    simp [List.countP_cons, List.countP_append, isTimedWait, h.2.2.2]

/-- Closed instance of C7, matching the specification's scenario: attempt 0
yields one value, attempt 1 yields two, so the loop stops at attempt 1 with
two evaluations and two of each wait. -/
theorem scrape_early_success_witness :
    (scrape_xsol_apys envA 4).2 =
        Outcome.ok (attemptValues envA 1) (attemptRaw envA 1) ∧
    (scrape_xsol_apys envA 4).1.count Ev.evaluate = 2 ∧
    (scrape_xsol_apys envA 4).1.count Ev.waitNetworkIdle = 2 ∧
    (scrape_xsol_apys envA 4).1.countP isTimedWait = 2 :=
  scrape_early_success envA 4 1 rfl (by decide)
    (by intro j hj; interval_cases j; decide) (by decide)

/-- Counterexample to claim C1 as stated: with the deployed
`MAX_ATTEMPTS = 4` and every attempt parsing exactly one value, the
exhausted run returns the empty list together with the last attempt's raw
rows — not the last attempt's parsed values (`[10]`), so the result is not
the last attempt's ExtractionResult "as-is". -/
theorem scrape_exhaust_cex :
    (scrape_xsol_apys envB MAX_ATTEMPTS).2 =
        Outcome.ok [] [⟨"xSOL pool 10%", ""⟩] ∧
    attemptValues envB 3 = [10] ∧
    (attemptValues envB 3).length < 2 ∧
    Outcome.ok [] [⟨"xSOL pool 10%", ""⟩] ≠
      Outcome.ok (attemptValues envB 3) [⟨"xSOL pool 10%", ""⟩] := by decide

/-- Claim C1 (amended): when navigation succeeded, at least one attempt ran
and every attempt yields fewer than 2 parsed values, the function returns
normally (no error) with an empty values list and the last attempt's raw
rows; the last attempt's parsed values themselves (possibly one of them)
are discarded rather than returned. -/
theorem scrape_exhaust_returns_empty (env : Env) (M : Nat)
    (hg : env.gotoOk = true) (hM : 0 < M)
    (hall : ∀ j, j < M → (attemptValues env j).length < 2) :
    (scrape_xsol_apys env M).2 = Outcome.ok [] (attemptRaw env (M - 1)) := by
  have h := loopAux_exhaust env M 0 none hM
    (by intro j hj; simpa using hall j hj)
  rw [Nat.zero_add] at h
  rw [scrape_snd, if_pos hg]
  exact h

/-- Closed instance of the amended C1: the all-attempts-fail environment
with the deployed 4-attempt configuration. -/
theorem scrape_exhaust_returns_empty_witness :
    (scrape_xsol_apys envB 4).2 = Outcome.ok [] (attemptRaw envB 3) :=
  scrape_exhaust_returns_empty envB 4 rfl (by decide)
    (by intro j hj; interval_cases j <;> decide)

/-- Claim C9: the returned value list never has length exactly 1 — every
normal return carries either an empty list or at least two values — and
consequently `main`'s emptiness check makes the accesses to the first and
second values safe: no run of `main` reaches the index error. -/
theorem scrape_never_single_value :
    (∀ (env : Env) (M : Nat) (apys : List ℚ) (raw : List RawRow),
        (scrape_xsol_apys env M).2 = Outcome.ok apys raw →
        apys = [] ∨ 2 ≤ apys.length) ∧
    (∀ (env : Env) (M : Nat) (t : TransportOutcome),
        mainRun env M t ≠ MainOutcome.indexError) := by
  have hshape : ∀ (env : Env) (M : Nat) (apys : List ℚ) (raw : List RawRow),
      (scrape_xsol_apys env M).2 = Outcome.ok apys raw →
      apys = [] ∨ 2 ≤ apys.length := by
    intro env M apys raw h
    rw [scrape_snd] at h
    by_cases hg : env.gotoOk = true
    · rw [if_pos hg] at h
      exact loopAux_ok_shape env M 0 none apys raw h
    · rw [if_neg hg] at h
      exact absurd h (by simp)
  refine ⟨hshape, ?_⟩
  intro env M t
  unfold mainRun
  cases hout : (scrape_xsol_apys env M).2 with
  | navError => simp
  | unboundLocal => simp
  | ok apys raw =>
      rcases hshape env M apys raw hout with h | h
      · subst h
        simp
      · cases apys with
        | nil => simp at h
        | cons a tl =>
            cases tl with
            | nil => simp at h
            | cons b tl2 =>
                by_cases ht : THRESHOLD ≤ |a - b| <;> simp [ht]

/-- Closed instance of C9: the exhausted run ends in the insufficient-data
outcome, not the index error, although its last attempt parsed one value. -/
theorem scrape_never_single_value_witness :
    mainRun envB 4 TransportOutcome.netError ≠ MainOutcome.indexError :=
  scrape_never_single_value.2 envB 4 TransportOutcome.netError

/-- Claim C10: the function needs `maxAttempts ≥ 1`.  With the bound at 0
the loop body never runs and the final `return [], raw` reads `raw` before
any assignment, raising an unbound-local error instead of returning; with
any bound ≥ 1 (and successful navigation) the function always returns a
normal result. -/
theorem scrape_zero_attempts (env : Env) (hg : env.gotoOk = true) :
    (scrape_xsol_apys env 0).2 = Outcome.unboundLocal ∧
    (∀ M, 1 ≤ M →
        ∃ apys raw, (scrape_xsol_apys env M).2 = Outcome.ok apys raw) := by
  constructor
  · rw [scrape_snd, if_pos hg]
    rfl
  · intro M hM
    obtain ⟨a, r, h⟩ := loopAux_ok_exists env M 0 none (Or.inl hM)
    refine ⟨a, r, ?_⟩
    rw [scrape_snd, if_pos hg]
    exact h

/-- Closed instance of C10: the zero-attempt configuration raises the
unbound-local error in a concrete environment. -/
theorem scrape_zero_attempts_witness :
    (scrape_xsol_apys envB 0).2 = Outcome.unboundLocal :=
  (scrape_zero_attempts envB rfl).1

/-- Claim C3: the rendering session is released on every exit path.  The
trace of every run contains the scoped release performed on exit from the
`async with` block; every normal return is additionally preceded by an
explicit `browser.close()`; and a run whose navigation fails performs
launch, failed navigation, and the scoped release before terminating with
the navigation error. -/
theorem scrape_release_on_all_paths (env : Env) (M : Nat) :
    Ev.ctxRelease ∈ (scrape_xsol_apys env M).1 ∧
    (∀ (apys : List ℚ) (raw : List RawRow),
        (scrape_xsol_apys env M).2 = Outcome.ok apys raw →
        Ev.closeBrowser ∈ (scrape_xsol_apys env M).1) ∧
    (env.gotoOk = false →
        scrape_xsol_apys env M =
          ([Ev.launch, Ev.goto false, Ev.ctxRelease], Outcome.navError)) := by
  by_cases hg : env.gotoOk = true
  · refine ⟨?_, ?_, ?_⟩
    · rw [scrape_trace_true env M hg]
      simp
    · intro apys raw h
      rw [scrape_snd, if_pos hg] at h
      have hmem := loopAux_close env M 0 none apys raw h
      rw [scrape_trace_true env M hg]
      simp [hmem]
    · intro hfalse
      rw [hg] at hfalse
      cases hfalse
  · have hg' : env.gotoOk = false := by simpa using hg
    refine ⟨?_, ?_, ?_⟩
    · simp [scrape_xsol_apys, hg']
    · intro apys raw h
      rw [scrape_snd, if_neg hg] at h
      exact absurd h (by simp)
    · intro _
      simp [scrape_xsol_apys, hg']

/-- Closed instance of C3: the failed-navigation run still ends in the
scoped release. -/
theorem scrape_release_on_all_paths_witness :
    scrape_xsol_apys envNav 4 =
      ([Ev.launch, Ev.goto false, Ev.ctxRelease], Outcome.navError) :=
  (scrape_release_on_all_paths envNav 4).2.2 rfl

/-- Counterexample to claim C4 as stated: a non-2xx response — HTTP 304,
which `raise_for_status` does not treat as an error — with a JSON body is
returned as a delivery, not reported as non-delivery, so "non-2xx status
implies delivered = false" fails on the code. -/
theorem send_non2xx_cex :
    send_telegram_message (TransportOutcome.response 304 true "ok") = some "ok" ∧
    ¬ (200 ≤ 304 ∧ 304 < 300) := by decide

/-- Claim C4 (amended): every failing transport outcome — network error,
timeout, a 4xx/5xx status (the statuses `raise_for_status` raises on), or
an unparseable response body — is caught inside `send_telegram_message` and
reported as `none` (non-delivery); totality of the embedded function
records that no exception reaches the caller.  Moreover the transport
outcome never changes the control flow of a `main` run: two runs differing
only in the transport outcome produce the same terminal state up to the
delivery flag, so a failed notification never crashes or aborts the run. -/
theorem send_failure_contained :
    (∀ (status : Nat) (jsonOk : Bool) (body : String),
        400 ≤ status → status < 600 →
        send_telegram_message (TransportOutcome.response status jsonOk body) = none) ∧
    (∀ (status : Nat) (body : String),
        send_telegram_message (TransportOutcome.response status false body) = none ∨
          400 ≤ status ∧ status < 600) ∧
    send_telegram_message TransportOutcome.netError = none ∧
    send_telegram_message TransportOutcome.timedOut = none ∧
    (∀ (env : Env) (M : Nat) (t u : TransportOutcome),
        stripDelivered (mainRun env M t) = stripDelivered (mainRun env M u)) := by
  refine ⟨?_, ?_, rfl, rfl, ?_⟩
  · intro s j b h1 h2
    simp only [send_telegram_message]
    rw [if_pos ⟨h1, h2⟩]
  · intro s b
    by_cases hs : 400 ≤ s ∧ s < 600
    · exact Or.inr hs
    · left
      simp only [send_telegram_message]
      rw [if_neg hs]
      simp
  · intro env M t u
    unfold mainRun
    cases (scrape_xsol_apys env M).2 with
    | navError => rfl
    | unboundLocal => rfl
    | ok apys raw =>
        by_cases he : apys.isEmpty
        · simp [he]
        · cases apys with
          | nil => simp at he
          | cons a tl =>
              cases tl with
              | nil => simp [he]
              | cons b tl2 =>
                  by_cases ht : THRESHOLD ≤ |a - b| <;> simp [he, ht, stripDelivered]

/-- Closed instance of the amended C4: the specification's HTTP 500 case is
reported as non-delivery. -/
theorem send_failure_contained_witness :
    send_telegram_message (TransportOutcome.response 500 true "err") = none :=
  send_failure_contained.1 500 true "err" (by decide) (by decide)

end Scrape
